import Mathlib

/-!
Verification of the Debian Apache enablement module
(`salt/modules/deb_apache.py`): symlink-based state observation,
before/after reconciliation of site toggles, and exit-code
classification of single-artifact module/conf toggles.

The Python module is shallowly embedded: the filesystem is a record of
an `os.listdir` field (returning `none` on `OSError`) and an
`os.path.islink` field; the salt command runner (`cmd.run_all`,
`cmd.retcode`) is a function parameter returning `Except` (error =
the Python exception that `cmd.*` may raise); Python dicts with string
keys are association lists with last-assignment-wins insertion.
-/

/-- Status field of a single-artifact toggle result: either a formatted
message string or the raw integer exit code stored unmodified. -/
inductive StatusVal where
  | msg (s : String)
  | code (c : Int)
deriving DecidableEq

/-- Result dict of `a2enmod` / `a2dismod` (keys `Name`, `Mod`, `Status`). -/
structure ModRet where
  Name : String
  Mod : String
  Status : StatusVal
deriving DecidableEq

/-- Result dict of `a2enconf` / `a2disconf` (keys `Name`, `Conf`, `Status`). -/
structure ConfRet where
  Name : String
  Conf : String
  Status : StatusVal
deriving DecidableEq

/-- `SITE_AVAILABLE_DIR` module constant. -/
def SITE_AVAILABLE_DIR : String := "/etc/apache2/sites-available"

/-- `SITE_ENABLED_DIR` module constant. -/
def SITE_ENABLED_DIR : String := "/etc/apache2/sites-enabled"

/-- The filesystem as observed through the two `os` primitives the module
uses: `listdir` returns `none` where Python raises `OSError`, and
`islink` is the boolean symlink test (false also for missing paths). -/
structure Fs where
  listdir : String → Option (List String)
  islink : String → Bool

/-- Python exceptions that escape the site functions: an `OSError` from
`os.listdir`, or an exception raised by the salt command runner. -/
inductive PyErr where
  | osError (path : String)
  | cmdError (e : String)
deriving DecidableEq

/-- `check_site_enabled(site)`: true if `SITE_ENABLED_DIR/site` is a
symlink, or the site is literally `default` and `SITE_ENABLED_DIR/000-default`
is a symlink. -/
def check_site_enabled (fs : Fs) (site : String) : Bool :=
  if fs.islink (SITE_ENABLED_DIR ++ "/" ++ site) then true
  else if site = "default" ∧ fs.islink (SITE_ENABLED_DIR ++ "/000-" ++ site) then true
  else false

/-- Python dict assignment `d[k] = v` on a string-keyed dict modelled as
an association list: overwrite in place if the key exists, else append. -/
def dictInsert {α : Type} (d : List (String × α)) (k : String) (v : α) :
    List (String × α) :=
  if d.any (fun p => p.1 == k) then
    d.map (fun p => if p.1 = k then (k, v) else p)
  else d ++ [(k, v)]

/-- Python dict lookup `d.get(k)` on the association-list model. -/
def dictGet {α : Type} (d : List (String × α)) (k : String) : Option α :=
  (d.find? (fun p => p.1 == k)).map Prod.snd

/-- `list_sites()`: list `SITE_AVAILABLE_DIR` and map every entry to its
`check_site_enabled` status; an `OSError` from `os.listdir` propagates. -/
def list_sites (fs : Fs) : Except PyErr (List (String × Bool)) :=
  match fs.listdir SITE_AVAILABLE_DIR with
  | none => .error (.osError SITE_AVAILABLE_DIR)
  | some site_list =>
      .ok (site_list.foldl (fun ret site => dictInsert ret site (check_site_enabled fs site)) [])

/-- `a2enmod(mod)`: run `['a2enmod', mod]` through `cmd.retcode`
(`python_shell=False`); a raised exception is returned as-is (`return e`),
otherwise the exit code is classified into the `Status` field. -/
def a2enmod (run : List String → Except String Int) (m : String) :
    Except String ModRet :=
  match run ["a2enmod", m] with
  | .error e => .error e
  | .ok status =>
      .ok { Name := "Apache2 Enable Mod", Mod := m,
            Status :=
              if status = 1 then .msg ("Mod " ++ m ++ " Not found")
              else if status = 0 then .msg ("Mod " ++ m ++ " enabled")
              else .code status }

/-- `a2dismod(mod)`: like `a2enmod` but with exit code 256 (not 1) meaning
not-found and 0 meaning disabled. -/
def a2dismod (run : List String → Except String Int) (m : String) :
    Except String ModRet :=
  match run ["a2dismod", m] with
  | .error e => .error e
  | .ok status =>
      .ok { Name := "Apache2 Disable Mod", Mod := m,
            Status :=
              if status = 256 then .msg ("Mod " ++ m ++ " Not found")
              else if status = 0 then .msg ("Mod " ++ m ++ " disabled")
              else .code status }

/-- `a2enconf(conf)`: conf variant of `a2enmod` (the `which` decorator
guards module loading only and is not part of the call behavior). -/
def a2enconf (run : List String → Except String Int) (c : String) :
    Except String ConfRet :=
  match run ["a2enconf", c] with
  | .error e => .error e
  | .ok status =>
      .ok { Name := "Apache2 Enable Conf", Conf := c,
            Status :=
              if status = 1 then .msg ("Conf " ++ c ++ " Not found")
              else if status = 0 then .msg ("Conf " ++ c ++ " enabled")
              else .code status }

/-- `a2disconf(conf)`: conf variant of `a2dismod`. -/
def a2disconf (run : List String → Except String Int) (c : String) :
    Except String ConfRet :=
  match run ["a2disconf", c] with
  | .error e => .error e
  | .ok status =>
      .ok { Name := "Apache2 Disable Conf", Conf := c,
            Status :=
              if status = 256 then .msg ("Conf " ++ c ++ " Not found")
              else if status = 0 then .msg ("Conf " ++ c ++ " disabled")
              else .code status }

/-- Toggle verb of the spec's classifier contract. -/
inductive Verb where
  | enable
  | disable
deriving DecidableEq

/-- The spec's closed single-toggle status vocabulary. -/
inductive SingleToggleStatus where
  | Enabled
  | Disabled
  | NotFound
  | Unknown (rawCode : Int)
deriving DecidableEq

/-- Modelled from the spec (refinement target, not source code): the
classifier contract of section 4.4 — enable: 0 maps to Enabled, 1 to
NotFound, otherwise Unknown(code); disable: 0 maps to Disabled, 256 to
NotFound, otherwise Unknown(code). -/
def classifySingleToggle (v : Verb) (c : Int) : SingleToggleStatus :=
  match v with
  | .enable => if c = 0 then .Enabled else if c = 1 then .NotFound else .Unknown c
  | .disable => if c = 0 then .Disabled else if c = 256 then .NotFound else .Unknown c

/-- How each abstract status is rendered in the concrete `Status` field,
for an artifact kind word (`Mod` or `Conf`) and artifact name. -/
def renderStatus (kind m : String) : SingleToggleStatus → StatusVal
  | .Enabled => .msg (kind ++ " " ++ m ++ " enabled")
  | .Disabled => .msg (kind ++ " " ++ m ++ " disabled")
  | .NotFound => .msg (kind ++ " " ++ m ++ " Not found")
  | .Unknown c => .code c

/-- Value type of the heterogeneous dict returned by `a2ensite` /
`a2dissite`: per-site change records from the diff, or the stderr string
stored under the `errors` key. -/
inductive SiteVal where
  | change (before after : Option Bool)
  | errs (s : String)
deriving DecidableEq

/-- Modelled from the spec: `salt.utils.compare_dicts` is imported from
outside `src/`; section 4.3 step 5 specifies it: for every name present
in either observation, record the before/after pair exactly when the two
lookups differ, and omit names with identical status. -/
def compare_dicts (old new : List (String × Bool)) :
    List (String × SiteVal) :=
  ((old.map Prod.fst ++ new.map Prod.fst).dedup).filterMap (fun k =>
    if dictGet old k ≠ dictGet new k then
      some (k, SiteVal.change (dictGet old k) (dictGet new k))
    else none)

/-- What `cmd.run_all` reports when the process ran: raw exit code and
captured stderr (the fields `a2ensite` consults). -/
structure CmdResult where
  retcode : Int
  stderr : String

/-- Environment of a site toggle: the filesystem at the first
observation, and the command runner, which either raises (`.error`, the
process could not run) or returns the process result together with the
filesystem as the completed command left it. -/
structure SiteEnv where
  fs0 : Fs
  runOutcome : List String → Except String (CmdResult × Fs)

/-- Python truthiness of the optional `name` argument: `None` and the
empty string are falsy. -/
def truthyStr : Option String → Bool
  | none => false
  | some s => !(s == "")

/-- Python truthiness of the optional `sites` argument: `None` and the
empty list are falsy. -/
def truthyList : Option (List String) → Bool
  | none => false
  | some l => !l.isEmpty

/-- Command-list construction shared verbatim by `a2ensite` and
`a2dissite`: start from the bare executable, append `name` if truthy,
extend with `sites` if truthy. -/
def buildSiteCommand (exe : String) (name : Option String)
    (sites : Option (List String)) : List String :=
  let command := [exe]
  let command := if truthyStr name then command ++ [name.getD ""] else command
  if truthyList sites then command ++ (sites.getD []) else command

/-- `a2ensite(name=None, sites=None)`: observe, run
`['a2ensite', ...names]` with `python_shell=False`, observe again, diff,
and on nonzero retcode assign the stderr under the `errors` key.
Exceptions from `os.listdir` or `cmd.run_all` propagate uncaught. -/
def a2ensite (env : SiteEnv) (name : Option String)
    (sites : Option (List String)) : Except PyErr (List (String × SiteVal)) :=
  let command := buildSiteCommand "a2ensite" name sites
  match list_sites env.fs0 with
  | .error e => .error e
  | .ok old =>
      match env.runOutcome command with
      | .error e => .error (.cmdError e)
      | .ok (res, fs1) =>
          match list_sites fs1 with
          | .error e => .error e
          | .ok new =>
              let ret := compare_dicts old new
              if res.retcode ≠ 0 then
                .ok (dictInsert ret "errors" (SiteVal.errs res.stderr))
              else .ok ret

/-- `a2dissite(name=None, sites=None)`: identical pipeline with the
`a2dissite` executable. -/
def a2dissite (env : SiteEnv) (name : Option String)
    (sites : Option (List String)) : Except PyErr (List (String × SiteVal)) :=
  let command := buildSiteCommand "a2dissite" name sites
  match list_sites env.fs0 with
  | .error e => .error e
  | .ok old =>
      match env.runOutcome command with
      | .error e => .error (.cmdError e)
      | .ok (res, fs1) =>
          match list_sites fs1 with
          | .error e => .error e
          | .ok new =>
              let ret := compare_dicts old new
              if res.retcode ≠ 0 then
                .ok (dictInsert ret "errors" (SiteVal.errs res.stderr))
              else .ok ret

/-- Filesystem with a single available site `errors`, not enabled. -/
def fsErrorsOff : Fs :=
  { listdir := fun p => if p = SITE_AVAILABLE_DIR then some ["errors"] else none
    islink := fun _ => false }

/-- Filesystem with the single available site `errors` enabled. -/
def fsErrorsOn : Fs :=
  { listdir := fun p => if p = SITE_AVAILABLE_DIR then some ["errors"] else none
    islink := fun p => p == SITE_ENABLED_DIR ++ "/errors" }

/-- Toggle environment where the command runs, enables site `errors`,
yet exits 1 with stderr `boom`. -/
def envFail : SiteEnv :=
  { fs0 := fsErrorsOff
    runOutcome := fun _ => .ok (⟨1, "boom"⟩, fsErrorsOn) }

/-- Toggle environment where the command enables site `errors` and
exits 0. -/
def envOk : SiteEnv :=
  { fs0 := fsErrorsOff
    runOutcome := fun _ => .ok (⟨0, ""⟩, fsErrorsOn) }

/-- Toggle environment where the process cannot be started at all: the
runner raises. -/
def envStartFail : SiteEnv :=
  { fs0 := fsErrorsOff
    runOutcome := fun _ => .error "ENOENT" }

/-- Filesystem whose listing raises `OSError` for every directory. -/
def fsNoDir : Fs :=
  { listdir := fun _ => none
    islink := fun _ => false }

/-- Filesystem with two available sites `a` and `b`, neither enabled. -/
def fsTwoSites : Fs :=
  { listdir := fun p => if p = SITE_AVAILABLE_DIR then some ["a", "b"] else none
    islink := fun _ => false }

/-- C7: the per-site enablement check for `default` is true exactly when
the plain symlink or the `000-` variant exists, and false only when
neither does; for any other name only the plain symlink is consulted. -/
theorem default_site_special_case (fs : Fs) (site : String) (h : site ≠ "default") :
    check_site_enabled fs "default" =
      (fs.islink "/etc/apache2/sites-enabled/default" ||
        fs.islink "/etc/apache2/sites-enabled/000-default") ∧
    check_site_enabled fs site = fs.islink (SITE_ENABLED_DIR ++ "/" ++ site) := by
  have e1 : SITE_ENABLED_DIR ++ "/" ++ "default" = "/etc/apache2/sites-enabled/default" := rfl
  have e2 : SITE_ENABLED_DIR ++ "/000-" ++ "default" = "/etc/apache2/sites-enabled/000-default" := rfl
  constructor
  · rw [check_site_enabled, e1, e2]
    cases h1 : fs.islink "/etc/apache2/sites-enabled/default" <;>
      cases h2 : fs.islink "/etc/apache2/sites-enabled/000-default" <;> simp [h1, h2]
  · rw [check_site_enabled]
    cases h1 : fs.islink (SITE_ENABLED_DIR ++ "/" ++ site) <;> simp [h1, h]

/-- Witness for C7 at a concrete filesystem and a non-default name. -/
theorem default_site_special_case_witness :
    check_site_enabled fsErrorsOn "default" =
      (fsErrorsOn.islink "/etc/apache2/sites-enabled/default" ||
        fsErrorsOn.islink "/etc/apache2/sites-enabled/000-default") ∧
    check_site_enabled fsErrorsOn "errors" =
      fsErrorsOn.islink (SITE_ENABLED_DIR ++ "/" ++ "errors") :=
  default_site_special_case fsErrorsOn "errors" (by decide)

/-- C8: when the available directory cannot be listed, `list_sites`
fails with the filesystem error and in particular never returns any
mapping, empty or not. -/
theorem observe_surfaces_fs_error (fs : Fs)
    (h : fs.listdir SITE_AVAILABLE_DIR = none) :
    list_sites fs = Except.error (PyErr.osError SITE_AVAILABLE_DIR) ∧
    ∀ m : List (String × Bool), list_sites fs ≠ Except.ok m := by
  have h1 : list_sites fs = Except.error (PyErr.osError SITE_AVAILABLE_DIR) := by
    unfold list_sites
    rw [h]
  refine ⟨h1, fun m hm => ?_⟩
  rw [h1] at hm
  exact Except.noConfusion hm

/-- Witness for C8 on the filesystem whose listing always raises. -/
theorem observe_surfaces_fs_error_witness :
    list_sites fsNoDir = Except.error (PyErr.osError SITE_AVAILABLE_DIR) :=
  (observe_surfaces_fs_error fsNoDir rfl).1

/-- C9: the stderr text is stored under key `errors` in the same dict as
the per-site diff entries: a changed site literally named `errors` has
its before/after entry overwritten by the stderr text when the command
exits nonzero, and on a successful toggle it occupies that same key. -/
theorem errors_key_collision :
    a2ensite envFail (some "errors") none =
      Except.ok [("errors", SiteVal.errs "boom")] ∧
    a2ensite envOk (some "errors") none =
      Except.ok [("errors", SiteVal.change (some false) (some true))] := by
  constructor <;> rfl

/-- C1: for every module or conf single-artifact toggle, the mapping from
raw exit code to the `Status` field is total and refines the spec's
classifier exactly: enable 0 renders Enabled, enable 1 renders NotFound,
disable 0 renders Disabled, disable 256 renders NotFound, and any other
code renders Unknown carrying that exact raw code unmodified. -/
theorem single_toggle_classifier_total (m : String) (c : Int) :
    a2enmod (fun _ => Except.ok c) m =
      Except.ok ⟨"Apache2 Enable Mod", m, renderStatus "Mod" m (classifySingleToggle .enable c)⟩ ∧
    a2dismod (fun _ => Except.ok c) m =
      Except.ok ⟨"Apache2 Disable Mod", m, renderStatus "Mod" m (classifySingleToggle .disable c)⟩ ∧
    a2enconf (fun _ => Except.ok c) m =
      Except.ok ⟨"Apache2 Enable Conf", m, renderStatus "Conf" m (classifySingleToggle .enable c)⟩ ∧
    a2disconf (fun _ => Except.ok c) m =
      Except.ok ⟨"Apache2 Disable Conf", m, renderStatus "Conf" m (classifySingleToggle .disable c)⟩ := by
  refine ⟨?_, ?_, ?_, ?_⟩ <;>
    simp only [a2enmod, a2dismod, a2enconf, a2disconf, classifySingleToggle] <;>
    by_cases h0 : c = 0 <;> by_cases h1 : c = 1 <;> by_cases h256 : c = 256 <;>
    simp_all [renderStatus]

/-- C3: the Command Runner receives the executable and each artifact
name as separate list elements in the given order (a name containing
shell metacharacters stays one element), with zero names the bare
executable alone; moreover `a2ensite` consults the runner only at that
exact list, so two environments agreeing there behave identically. -/
theorem command_args_separate (n : String) (hn : n ≠ "") (l : List String)
    (hl : l ≠ []) (env1 env2 : SiteEnv) (hfs : env1.fs0 = env2.fs0)
    (hrun : env1.runOutcome ("a2ensite" :: n :: l) =
      env2.runOutcome ("a2ensite" :: n :: l)) :
    buildSiteCommand "a2ensite" (some n) (some l) = "a2ensite" :: n :: l ∧
    buildSiteCommand "a2dissite" (some n) (some l) = "a2dissite" :: n :: l ∧
    buildSiteCommand "a2ensite" none none = ["a2ensite"] ∧
    buildSiteCommand "a2dissite" none none = ["a2dissite"] ∧
    a2ensite env1 (some n) (some l) = a2ensite env2 (some n) (some l) := by
  have hb : ∀ exe, buildSiteCommand exe (some n) (some l) = exe :: n :: l := by
    intro exe
    cases l with
    | nil => exact absurd rfl hl
    | cons a as => simp [buildSiteCommand, truthyStr, truthyList, hn]
  refine ⟨hb _, hb _, rfl, rfl, ?_⟩
  simp only [a2ensite, hb, hfs, hrun]

/-- Witness for C3: the injection-shaped name stays a single element. -/
theorem command_args_separate_witness :
    buildSiteCommand "a2ensite" (some "a;rm -rf /") (some ["b"]) =
      ["a2ensite", "a;rm -rf /", "b"] :=
  (command_args_separate "a;rm -rf /" (by decide) ["b"] (by decide)
    envOk envOk rfl rfl).1

/-- C10: a falsy `name` (None or the empty string) and a falsy `sites`
(None or the empty list) are each treated as absent: every such
combination yields the bare executable plus only the truthy parts, and
an empty-string name is never appended as an empty argument. -/
theorem falsy_args_treated_absent (e : String) (n : Option String)
    (s : Option (List String)) (hn : n = none ∨ n = some "")
    (hs : s = none ∨ s = some []) :
    (∀ s2, buildSiteCommand e n s2 = buildSiteCommand e none s2) ∧
    (∀ n2, buildSiteCommand e n2 s = buildSiteCommand e n2 none) ∧
    buildSiteCommand e n s = [e] ∧
    (∀ l, l ≠ [] → buildSiteCommand e n (some l) = e :: l) ∧
    (∀ m, m ≠ "" → buildSiteCommand e (some m) s = [e, m]) := by
  have p1 : ∀ s2, buildSiteCommand e n s2 = buildSiteCommand e none s2 := by
    rcases hn with rfl | rfl
    · intro s2; rfl
    · intro s2; simp [buildSiteCommand, truthyStr]
  have p2 : ∀ n2, buildSiteCommand e n2 s = buildSiteCommand e n2 none := by
    rcases hs with rfl | rfl
    · intro n2; rfl
    · intro n2; simp [buildSiteCommand, truthyList]
  have p3 : ∀ l : List String, l ≠ [] → buildSiteCommand e none (some l) = e :: l := by
    intro l hl
    cases l with
    | nil => exact absurd rfl hl
    | cons a as => simp [buildSiteCommand, truthyStr, truthyList]
  have p4 : ∀ m : String, m ≠ "" → buildSiteCommand e (some m) none = [e, m] := by
    intro m hm
    simp [buildSiteCommand, truthyStr, truthyList, hm]
  refine ⟨p1, p2, ?_, ?_, ?_⟩
  · rw [p1 s, p2 none]
    rfl
  · intro l hl
    rw [p1 (some l), p3 l hl]
  · intro m hm
    rw [p2 (some m), p4 m hm]

/-- Witness for C10: empty-string name and empty sites list both vanish
from the argument list. -/
theorem falsy_args_treated_absent_witness :
    buildSiteCommand "a2ensite" (some "") (some []) = ["a2ensite"] ∧
    buildSiteCommand "a2dissite" (some "") none = ["a2dissite"] :=
  ⟨(falsy_args_treated_absent "a2ensite" (some "") (some [])
      (Or.inr rfl) (Or.inr rfl)).2.2.1,
   (falsy_args_treated_absent "a2dissite" (some "") none
      (Or.inr rfl) (Or.inl rfl)).2.2.1⟩

/-- A key absent from an association list looks up to `none`. -/
theorem dictGet_eq_none_of_not_mem {α : Type} {d : List (String × α)} {k : String}
    (h : k ∉ d.map Prod.fst) : dictGet d k = none := by
  unfold dictGet
  have hf : d.find? (fun p => p.1 == k) = none := by
    rw [List.find?_eq_none]
    intro p hp hpk
    exact h (List.mem_map.mpr ⟨p, hp, by simpa using hpk⟩)
  rw [hf]
  rfl

/-- A key with a non-`none` lookup occurs among the keys. -/
theorem mem_keys_of_dictGet_ne_none {α : Type} {d : List (String × α)} {k : String}
    (h : dictGet d k ≠ none) : k ∈ d.map Prod.fst := by
  by_contra hk
  exact h (dictGet_eq_none_of_not_mem hk)

/-- Membership characterization of the diff: an entry is present exactly
for a key of either observation whose two lookups differ, and then it is
the before/after record of those lookups. -/
theorem mem_compare_dicts_iff (old new : List (String × Bool)) (k : String)
    (v : SiteVal) :
    (k, v) ∈ compare_dicts old new ↔
      (k ∈ (old.map Prod.fst ++ new.map Prod.fst).dedup ∧
        dictGet old k ≠ dictGet new k ∧
        v = SiteVal.change (dictGet old k) (dictGet new k)) := by
  simp only [compare_dicts, List.mem_filterMap]
  constructor
  · rintro ⟨a, ha, hfa⟩
    by_cases hne : dictGet old a ≠ dictGet new a
    · rw [if_pos hne] at hfa
      simp only [Option.some.injEq, Prod.mk.injEq] at hfa
      obtain ⟨rfl, rfl⟩ := hfa
      exact ⟨ha, hne, rfl⟩
    · rw [if_neg hne] at hfa
      exact absurd hfa (by simp)
  · rintro ⟨hk, hne, rfl⟩
    exact ⟨k, hk, by rw [if_pos hne]⟩

/-- C2: the diff of two enablement observations is minimal and complete:
a name appears iff its status differs between before and after (over the
names of either observation), and its entry carries exactly the before
and after lookups; identical before/after names are omitted. -/
theorem diff_minimal_and_complete (old new : List (String × Bool)) (k : String) :
    ((∃ v, (k, v) ∈ compare_dicts old new) ↔ dictGet old k ≠ dictGet new k) ∧
    ∀ v, (k, v) ∈ compare_dicts old new →
      v = SiteVal.change (dictGet old k) (dictGet new k) := by
  constructor
  · constructor
    · rintro ⟨v, hv⟩
      exact ((mem_compare_dicts_iff old new k v).mp hv).2.1
    · intro hne
      refine ⟨SiteVal.change (dictGet old k) (dictGet new k),
        (mem_compare_dicts_iff old new k _).mpr ⟨?_, hne, rfl⟩⟩
      rw [List.mem_dedup, List.mem_append]
      by_cases ho : dictGet old k = none
      · have hn2 : dictGet new k ≠ none := fun hcn => hne (ho.trans hcn.symm)
        exact Or.inr (mem_keys_of_dictGet_ne_none hn2)
      · exact Or.inl (mem_keys_of_dictGet_ne_none ho)
  · intro v hv
    exact ((mem_compare_dicts_iff old new k v).mp hv).2.2

/-- Witness for C2: the site whose status flipped is reported. -/
theorem diff_minimal_and_complete_witness :
    ∃ v, ("b", v) ∈ compare_dicts [("a", true), ("b", false)]
      [("a", true), ("b", true)] :=
  (diff_minimal_and_complete [("a", true), ("b", false)]
    [("a", true), ("b", true)] "b").1.mpr (by decide)

/-- Inserting a fresh key appends it. -/
theorem dictInsert_of_not_mem {α : Type} {d : List (String × α)} {k : String}
    (v : α) (h : k ∉ d.map Prod.fst) : dictInsert d k v = d ++ [(k, v)] := by
  unfold dictInsert
  rw [if_neg]
  intro hc
  rw [List.any_eq_true] at hc
  obtain ⟨p, hp, hpk⟩ := hc
  exact h (List.mem_map.mpr ⟨p, hp, by simpa using hpk⟩)

/-- Folding dict assignment over fresh, duplicate-free keys produces
exactly those keys, in order, after the accumulator's. -/
theorem foldl_dictInsert_keys {α : Type} (g : String → α) :
    ∀ (entries : List String) (d : List (String × α)), entries.Nodup →
      (∀ k ∈ entries, k ∉ d.map Prod.fst) →
      (entries.foldl (fun ret site => dictInsert ret site (g site)) d).map Prod.fst =
        d.map Prod.fst ++ entries := by
  intro entries
  induction entries with
  | nil =>
      intro d _ _
      simp
  | cons a as ih =>
      intro d hnd hdisj
      have hdisj2 : ∀ k ∈ as, k ∉ (d ++ [(a, g a)]).map Prod.fst := by
        intro k hk hmem
        rw [List.map_append, List.mem_append] at hmem
        rcases hmem with hkd | hka
        · exact hdisj k (List.mem_cons_of_mem a hk) hkd
        · simp only [List.map_cons, List.map_nil, List.mem_singleton] at hka
          subst hka
          exact (List.nodup_cons.mp hnd).1 hk
      rw [List.foldl_cons, dictInsert_of_not_mem (g a) (hdisj a (List.mem_cons_self a as)),
        ih (d ++ [(a, g a)]) (List.Nodup.of_cons hnd) hdisj2]
      simp

/-- C6: whenever the available directory lists some (duplicate-free, as
directory listings are) entries, `list_sites` succeeds with a mapping
whose keys are exactly those entries — one per item, no more, no fewer —
whatever the enabled directory contains. -/
theorem observe_keys_exact (fs : Fs) (entries : List String)
    (hls : fs.listdir SITE_AVAILABLE_DIR = some entries)
    (hnd : entries.Nodup) :
    ∃ m, list_sites fs = Except.ok m ∧ m.map Prod.fst = entries := by
  refine ⟨entries.foldl
    (fun ret site => dictInsert ret site (check_site_enabled fs site)) [], ?_, ?_⟩
  · unfold list_sites
    rw [hls]
  · have h := foldl_dictInsert_keys (check_site_enabled fs) entries []
      hnd (by intro k _ hk; simp at hk)
    simpa using h

/-- Witness for C6 on a filesystem with two available sites. -/
theorem observe_keys_exact_witness :
    ∃ m, list_sites fsTwoSites = Except.ok m ∧ m.map Prod.fst = ["a", "b"] :=
  observe_keys_exact fsTwoSites ["a", "b"] rfl (by decide)

/-- Assigning a key makes that key hold the assigned value. -/
theorem mem_dictInsert_self {α : Type} (d : List (String × α)) (k : String)
    (v : α) : (k, v) ∈ dictInsert d k v := by
  unfold dictInsert
  by_cases h : d.any (fun p => p.1 == k) = true
  · rw [if_pos h]
    rw [List.any_eq_true] at h
    obtain ⟨p, hp, hpk⟩ := h
    have hpk2 : p.1 = k := by simpa using hpk
    exact List.mem_map.mpr ⟨p, hp, by rw [if_pos hpk2]⟩
  · rw [if_neg h]
    exact List.mem_append.mpr (Or.inr (List.mem_singleton.mpr rfl))

/-- Assigning one key leaves entries under every other key untouched. -/
theorem mem_dictInsert_ne {α : Type} {d : List (String × α)} {k q : String}
    {v w : α} (hne : q ≠ k) :
    (q, v) ∈ dictInsert d k w ↔ (q, v) ∈ d := by
  unfold dictInsert
  by_cases h : d.any (fun p => p.1 == k) = true
  · rw [if_pos h]
    constructor
    · intro hm
      obtain ⟨p, hp, hfp⟩ := List.mem_map.mp hm
      by_cases hpk : p.1 = k
      · rw [if_pos hpk] at hfp
        injection hfp with h1 h2
        exact absurd h1.symm hne
      · rw [if_neg hpk] at hfp
        rw [← hfp]
        exact hp
    · intro hm
      refine List.mem_map.mpr ⟨(q, v), hm, ?_⟩
      simp [hne]
  · rw [if_neg h, List.mem_append]
    constructor
    · rintro (hm | hm)
      · exact hm
      · simp only [List.mem_singleton, Prod.mk.injEq] at hm
        exact absurd hm.1 hne
    · exact fun hm => Or.inl hm

/-- The diff itself never produces an error-text entry. -/
theorem compare_dicts_only_changes (old new : List (String × Bool))
    (q s : String) : (q, SiteVal.errs s) ∉ compare_dicts old new := by
  intro hm
  have h := (mem_compare_dicts_iff old new q (SiteVal.errs s)).mp hm
  exact SiteVal.noConfusion h.2.2

/-- C4 (amended): on nonzero exit the result is the diff with the stderr
text assigned under the `errors` key — every diff entry under any other
key is retained, but a diff entry keyed `errors` is overwritten; on zero
exit the result is exactly the diff, which carries no error text. -/
theorem nonzero_exit_attaches_stderr_and_diff (env : SiteEnv)
    (name : Option String) (sites : Option (List String))
    (old new : List (String × Bool)) (res : CmdResult) (fs1 : Fs)
    (hold : list_sites env.fs0 = Except.ok old)
    (hrun : env.runOutcome (buildSiteCommand "a2ensite" name sites) =
      Except.ok (res, fs1))
    (hnew : list_sites fs1 = Except.ok new) :
    (res.retcode ≠ 0 →
      a2ensite env name sites = Except.ok
        (dictInsert (compare_dicts old new) "errors" (SiteVal.errs res.stderr)) ∧
      ("errors", SiteVal.errs res.stderr) ∈
        dictInsert (compare_dicts old new) "errors" (SiteVal.errs res.stderr) ∧
      ∀ q v, q ≠ "errors" →
        ((q, v) ∈ dictInsert (compare_dicts old new) "errors"
            (SiteVal.errs res.stderr) ↔
          (q, v) ∈ compare_dicts old new)) ∧
    (res.retcode = 0 →
      a2ensite env name sites = Except.ok (compare_dicts old new) ∧
      ∀ q s2, (q, SiteVal.errs s2) ∉ compare_dicts old new) := by
  constructor
  · intro hc
    refine ⟨?_, mem_dictInsert_self _ _ _, fun q v hq => mem_dictInsert_ne hq⟩
    simp only [a2ensite, hold, hrun, hnew]
    simp [hc]
  · intro hc
    refine ⟨?_, fun q s2 => compare_dicts_only_changes old new q s2⟩
    simp only [a2ensite, hold, hrun, hnew]
    simp [hc]

/-- Counterexample to C4 as stated: the command exits nonzero after
flipping the site named `errors`; the diff records that flip, yet the
returned result does not contain the flip's diff entry — the stderr
assignment overwrote it. -/
theorem diff_entry_overwritten_cex :
    ("errors", SiteVal.change (some false) (some true)) ∈
      compare_dicts [("errors", false)] [("errors", true)] ∧
    a2ensite envFail (some "errors") none =
      Except.ok [("errors", SiteVal.errs "boom")] ∧
    ("errors", SiteVal.change (some false) (some true)) ∉
      [(("errors" : String), SiteVal.errs "boom")] := by
  refine ⟨by decide, rfl, by decide⟩

/-- Witness for the amended C4 at a concrete failing toggle. -/
theorem nonzero_exit_attaches_stderr_and_diff_witness :
    a2ensite envFail (some "errors") none = Except.ok
      (dictInsert (compare_dicts [("errors", false)] [("errors", true)])
        "errors" (SiteVal.errs "boom")) :=
  ((nonzero_exit_attaches_stderr_and_diff envFail (some "errors") none
      [("errors", false)] [("errors", true)] ⟨1, "boom"⟩ fsErrorsOn
      rfl rfl rfl).1 (by decide)).1

/-- C5: a failure to start the external process surfaces as the raised
exception itself, a value distinct from every exit-code classification:
the single-artifact toggle returns the exception and never any status
record, and the site toggle propagates it with no after observation
(none exists in the error branch) and never returns a diff. -/
theorem start_failure_distinct_error (run : List String → Except String Int)
    (m e : String) (hrun : run ["a2enmod", m] = Except.error e)
    (env : SiteEnv) (name : Option String) (sites : Option (List String))
    (old : List (String × Bool)) (hold : list_sites env.fs0 = Except.ok old)
    (henv : env.runOutcome (buildSiteCommand "a2ensite" name sites) =
      Except.error e) :
    a2enmod run m = Except.error e ∧
    (∀ r : ModRet, a2enmod run m ≠ Except.ok r) ∧
    a2ensite env name sites = Except.error (PyErr.cmdError e) ∧
    ∀ d : List (String × SiteVal), a2ensite env name sites ≠ Except.ok d := by
  have h1 : a2enmod run m = Except.error e := by
    unfold a2enmod
    rw [hrun]
  have h2 : a2ensite env name sites = Except.error (PyErr.cmdError e) := by
    simp only [a2ensite, hold, henv]
  refine ⟨h1, fun r hr => ?_, h2, fun d hd => ?_⟩
  · rw [h1] at hr
    exact Except.noConfusion hr
  · rw [h2] at hd
    exact Except.noConfusion hd

/-- Witness for C5: a runner that cannot start the process. -/
theorem start_failure_distinct_error_witness :
    a2enmod (fun _ => Except.error "ENOENT") "vhost_alias" =
      Except.error "ENOENT" ∧
    a2ensite envStartFail none none = Except.error (PyErr.cmdError "ENOENT") := by
  have h := start_failure_distinct_error (fun _ => Except.error "ENOENT")
    "vhost_alias" "ENOENT" rfl envStartFail none none [("errors", false)] rfl rfl
  exact ⟨h.1, h.2.2.1⟩
